import Mathlib

/-!
Shallow embedding of the AQI forecast backend (`main.py`, with the feature
schema construction shared with `train_baseline.py`).

Dates are modelled as integer day numbers (days since 1970-01-01, matching
pandas timestamps at day resolution: adding `timedelta(days=1)` is `+ 1`).
AQI values are modelled as rationals; a missing value (pandas `NaN`) is
modelled as `Option.none`.  A fitted regressor is an opaque function from
the ordered list of feature values to a prediction.
-/

namespace AqiBd

/-- One observation of a division's series: `(Date, AQI)` row. -/
structure Obs where
  date : Int
  aqi  : ℚ
  deriving DecidableEq, Repr

/-- A division's series: ordered list of observations (a two-column frame). -/
abbrev Series := List Obs

/-- Arithmetic mean of a list of rationals (`pandas` `.mean()` on a
NaN-free column). -/
def qmean (xs : List ℚ) : ℚ := xs.sum / (xs.length : ℚ)

/-- `col.shift(L)`: positional shift of a column down by `L`; the first `L`
entries become missing, and the column keeps its length. -/
def shiftCol (L : Nat) (xs : List ℚ) : List (Option ℚ) :=
  (List.replicate L none ++ xs.map some).take xs.length

/-- `col.rolling(w).mean()`: entry `i` is the mean of the window of the `w`
entries ending at `i`; missing unless the window is full (`w ≤ i + 1`) and
every entry in it is present (default `min_periods` equals the window). -/
def rollMeanCol (w : Nat) (s : List (Option ℚ)) : List (Option ℚ) :=
  (List.range s.length).map fun i =>
    if w ≤ i + 1 then
      let win := (s.drop (i + 1 - w)).take w
      if win.all Option.isSome then some (qmean (win.filterMap id)) else none
    else none

/-- The cell of a column at the last row (`tmp.iloc[-1:]` projection). -/
def lastCell (col : List (Option ℚ)) : Option ℚ := (col.getLast?).getD none

/-- Gregorian civil date `(year, month, day)` from a day number
(Howard Hinnant's `civil_from_days`, as used by pandas timestamps). -/
def civilFromDays (z0 : Int) : Int × Int × Int :=
  let z := z0 + 719468
  let era := z.fdiv 146097
  let doe := z - era * 146097
  let yoe := (doe - doe.fdiv 1460 + doe.fdiv 36524 - doe.fdiv 146096).fdiv 365
  let y := yoe + era * 400
  let doy := doe - (365 * yoe + yoe.fdiv 4 - yoe.fdiv 100)
  let mp := (5 * doy + 2).fdiv 153
  let d := doy - (153 * mp + 2).fdiv 5 + 1
  let m := mp + (if mp < 10 then 3 else -9)
  (y + (if m ≤ 2 then 1 else 0), m, d)

/-- Day number of a Gregorian civil date (Hinnant's `days_from_civil`). -/
def daysFromCivil (y m d : Int) : Int :=
  let y1 := y - (if m ≤ 2 then 1 else 0)
  let era := y1.fdiv 400
  let yoe := y1 - era * 400
  let doy := (153 * (m + (if 2 < m then -3 else 9)) + 2).fdiv 5 + d - 1
  let doe := yoe * 365 + yoe.fdiv 4 - yoe.fdiv 100 + doy
  era * 146097 + doe - 719468

/-- `.dt.dayofweek`: Monday = 0 … Sunday = 6 (1970-01-01 was a Thursday). -/
def dayofweek (z : Int) : Int := (z + 3).emod 7

/-- `.dt.month`: 1–12. -/
def month (z : Int) : Int := (civilFromDays z).2.1

/-- `.dt.dayofyear`: 1–366. -/
def dayofyear (z : Int) : Int := z - daysFromCivil (civilFromDays z).1 1 1 + 1

/-- The column name `lag_L`. -/
def lagName (L : Nat) : String := "lag_" ++ toString L

/-- Ordering of observations by their `Date` column. -/
def dateLe (a b : Obs) : Prop := a.date ≤ b.date

instance : DecidableRel dateLe := fun a b => Int.decLe a.date b.date

/-- `work.sort_values('Date')` (a stable sort on the date column). -/
def sortByDate (w : Series) : Series := List.insertionSort dateLe w

/-- `lag_L` cell of the last row: last entry of `work['AQI'].shift(L)`. -/
def lagCell (L : Nat) (w : Series) : Option ℚ :=
  lastCell (shiftCol L (w.map (·.aqi)))

/-- `roll{win}` cell of the last row: last entry of
`work['AQI'].shift(1).rolling(win).mean()`. -/
def rollCell (win : Nat) (w : Series) : Option ℚ :=
  lastCell (rollMeanCol win (shiftCol 1 (w.map (·.aqi))))

/-- Calendar cell of the last row: the calendar function applied to the last
row's date (always present). -/
def calCell (f : Int → Int) (w : Series) : Option ℚ :=
  (w.getLast?).map (fun o => ((f o.date : Int) : ℚ))

/-- The named feature cells of the last row of `build_feats`'s output, in the
column-insertion order of the source (`lag_1..lag_14`, `roll7`, `roll14`,
`dow`, `mon`, `doy`), for an already date-sorted working series. -/
def build_feats_row (w : Series) : List (String × Option ℚ) :=
  ((List.range 14).map fun i => (lagName (i + 1), lagCell (i + 1) w))
    ++ [("roll7", rollCell 7 w), ("roll14", rollCell 14 w),
        ("dow", calCell dayofweek w), ("mon", calCell month w),
        ("doy", calCell dayofyear w)]

/-- Select one named feature cell from the (sorted) last row. -/
def featCell (w : Series) (name : String) : Option ℚ :=
  ((build_feats_row w).lookup name).getD none

/-- The named feature of the last timestep of `build_feats work`
(the source's `build_feats` first re-sorts a copy of `work` by date). -/
def build_feats_last (work : Series) (name : String) : Option ℚ :=
  featCell (sortByDate work) name

/-- The feature schema stored with every model by `train_baseline.py`:
the `lag_` columns in insertion order, then the rolling and calendar
columns (`feature_cols`). -/
def FEATURES : List String :=
  ((List.range 14).map fun i => lagName (i + 1))
    ++ ["roll7", "roll14", "dow", "mon", "doy"]

/-- The fallback prediction: `float(work["AQI"].tail(7).mean())`, the mean of
the last (up to) 7 values currently in the working series. -/
def fallbackMean (work : Series) : ℚ :=
  qmean ((work.map (·.aqi)).drop (work.length - 7))

/-- One loop body of `predict`: build the feature row for the current working
series, select the `FEATURES` columns of the last row, and either fall back
(some selected cell is missing) or apply the fitted model to the values in
schema order. -/
def stepPred (model : List ℚ → ℚ) (features : List String) (work : Series) : ℚ :=
  let x := features.map (build_feats_last work)
  if x.any Option.isNone then fallbackMean work
  else model (x.filterMap id)

/-- One forecast point `{date, predicted_aqi}`. -/
structure FPoint where
  date : Int
  pred : ℚ
  deriving DecidableEq, Repr

/-- The `for step in range(1, 8)` loop of `predict`: for each remaining step,
emit `(last_date + step, prediction)` and append the same pair to the working
series. -/
def rolloutLoop (model : List ℚ → ℚ) (features : List String) (lastDate : Int) :
    List Nat → Series → List FPoint → List FPoint × Series
  | [], work, out => (out, work)
  | step :: rest, work, out =>
      let target : Int := lastDate + (step : Int)
      let pred := stepPred model features work
      rolloutLoop model features lastDate rest
        (work ++ [⟨target, pred⟩]) (out ++ [⟨target, pred⟩])

/-- `last_date` of the input series (`hist["Date"].max()`). -/
def histLastDate (hist : Series) : Int := ((hist.map (·.date)).max?).getD 0

/-- The autoregressive forecast engine: `last_date = hist["Date"].max()`,
then the 7-step rollout starting from a copy of `hist` and an empty output
list. -/
def forecast (model : List ℚ → ℚ) (features : List String) (hist : Series) :
    List FPoint × Series :=
  rolloutLoop model features (histLastDate hist) (List.range' 1 7) hist []

/-- The emitted predictions of the rollout, without the accumulator. -/
def rolloutOut (model : List ℚ → ℚ) (features : List String) (lastDate : Int) :
    List Nat → Series → List FPoint
  | [], _ => []
  | step :: rest, work =>
      ⟨lastDate + (step : Int), stepPred model features work⟩ ::
        rolloutOut model features lastDate rest
          (work ++ [⟨lastDate + (step : Int), stepPred model features work⟩])

/-- The working series after a list of steps has been processed. -/
def workAfterSteps (model : List ℚ → ℚ) (features : List String)
    (lastDate : Int) : List Nat → Series → Series
  | [], work => work
  | step :: rest, work =>
      workAfterSteps model features lastDate rest
        (work ++ [⟨lastDate + (step : Int), stepPred model features work⟩])

/-- The working series at the start of rollout step `k + 1` (so `workAt … 0`
is the original series). -/
def workAt (model : List ℚ → ℚ) (features : List String) (hist : Series)
    (k : Nat) : Series :=
  workAfterSteps model features (histLastDate hist) (List.range' 1 k) hist

/-- The named feature of the feature vector used at rollout step `k`
(steps counted from 1, as in the source loop). -/
def stepFeature (model : List ℚ → ℚ) (features : List String) (hist : Series)
    (k : Nat) (name : String) : Option ℚ :=
  build_feats_last (workAt model features hist (k - 1)) name

/-! ### The web layer: model loading, sheet cache, and the `/predict` endpoint -/

/-- The 8 recognized divisions. -/
def DIVS : List String :=
  ["Dhaka", "Chattogram", "Sylhet", "Khulna", "Rajshahi", "Barishal",
   "Mymensingh", "Rangpur"]

/-- `CACHE_SECS` default (30 minutes). -/
def CACHE_SECS : Int := 1800

/-- One cleaned sheet row: `(Date, City, AQI)`. -/
structure Row where
  date : Int
  city : String
  aqi  : ℚ
  deriving DecidableEq, Repr

/-- The module-level mutable state `_DATA = {"df": None, "ts": 0}`. -/
structure AppState where
  cacheDf : Option (List Row)
  cacheTs : Int
  deriving DecidableEq, Repr

/-- An `HTTPException(status, detail)`. -/
structure HErr where
  status : Nat
  detail : String
  deriving DecidableEq, Repr

/-- The `/predict` response body. -/
structure PredictOut where
  division : String
  forecastDays : Nat
  predictions : List FPoint
  deriving DecidableEq, Repr

/-- The content of one `models/{d}.pkl` file: the fitted regressor and the
feature schema stored next to it. -/
structure ModelObj where
  model : List ℚ → ℚ
  features : List String

/-- One iteration of the model-loading loop: if the division's model file
exists, insert its model into `MODELS` and overwrite the process-wide
`FEATURES` with the schema stored in that file; otherwise do nothing. -/
def loadStep (files : String → Option ModelObj)
    (acc : List (String × (List ℚ → ℚ)) × Option (List String)) (d : String) :
    List (String × (List ℚ → ℚ)) × Option (List String) :=
  match files d with
  | some obj => (acc.1 ++ [(d, obj.model)], some obj.features)
  | none => acc

/-- The module-level model loading loop: iterate over `DIVS`, starting from
`MODELS = {}` and `FEATURES = None`. -/
def loadModels (files : String → Option ModelObj) :
    List (String × (List ℚ → ℚ)) × Option (List String) :=
  DIVS.foldl (loadStep files) ([], none)

/-- Python's `str.strip()` whitespace test. -/
def isPySpace (c : Char) : Bool :=
  c = ' ' || c = '\t' || c = '\n' || c = '\r' || c = '\x0b' || c = '\x0c'

/-- Python's `division.strip()`: drop leading and trailing whitespace. -/
def pyStrip (s : String) : String :=
  String.mk (((s.data.dropWhile isPySpace).reverse.dropWhile isPySpace).reverse)

/-- `get_data_cached()`: return the cached cleaned sheet, refreshing it (and
the timestamp) when the cache is empty or older than `CACHE_SECS`.  The
cleaned result of `load_sheet_clean()` is supplied as `fetchClean` (the fetch
itself is an external collaborator). -/
def get_data_cached (fetchClean : List Row) (now : Int) (st : AppState) :
    List Row × AppState :=
  if st.cacheDf.isNone ∨ CACHE_SECS < now - st.cacheTs then
    (fetchClean, ⟨some fetchClean, now⟩)
  else (st.cacheDf.getD [], st)

/-- Ordering of sheet rows by their `Date` column. -/
def rowLe (a b : Row) : Prop := a.date ≤ b.date

instance : DecidableRel rowLe := fun a b => Int.decLe a.date b.date

/-- `df_all[df_all["City"]==division].sort_values("Date")[["Date","AQI"]]`:
the division's historical series extracted from the cached sheet. -/
def extractHist (df : List Row) (division : String) : Series :=
  ((df.filter fun r => r.city == division).insertionSort rowLe).map
    fun r => ⟨r.date, r.aqi⟩

/-- The body of the `/predict` endpoint after `division = division.strip()`:
validate the division, look up its model, read the cached sheet, extract the
history, and run the 7-step rollout. -/
def predictBody (models : List (String × (List ℚ → ℚ)))
    (features : List String) (fetchClean : List Row) (now : Int)
    (st : AppState) (division : String) : Except HErr PredictOut × AppState :=
  if division ∉ DIVS then
    (.error ⟨400, "division must be one of " ++ toString DIVS⟩, st)
  else
    match models.lookup division with
    | none => (.error ⟨500, "No model for " ++ division⟩, st)
    | some model =>
      let res := get_data_cached fetchClean now st
      let hist := extractHist res.1 division
      if hist.isEmpty then
        (.error ⟨404, "No data for " ++ division⟩, res.2)
      else
        (.ok ⟨division, 7, (forecast model features hist).1⟩, res.2)

/-- The `/predict` endpoint: strip the division string, then run the body. -/
def predict (models : List (String × (List ℚ → ℚ))) (features : List String)
    (fetchClean : List Row) (now : Int) (st : AppState) (division : String) :
    Except HErr PredictOut × AppState :=
  predictBody models features fetchClean now st (pyStrip division)

/-- The whole process: load the models at startup (setting the process-wide
`MODELS` and `FEATURES`), then serve `/predict` with those globals. -/
def predictApp (files : String → Option ModelObj) (fetchClean : List Row)
    (now : Int) (st : AppState) (division : String) :
    Except HErr PredictOut × AppState :=
  let loaded := loadModels files
  predict loaded.1 (loaded.2.getD []) fetchClean now st division

/-! ### Concrete test fixtures used by witnesses and counterexamples -/

/-- The synthetic linear ramp of the spec's full-feature test: values
`1..20` on consecutive daily dates (day numbers `0..19`). -/
def ramp : Series :=
  [⟨0, 1⟩, ⟨1, 2⟩, ⟨2, 3⟩, ⟨3, 4⟩, ⟨4, 5⟩, ⟨5, 6⟩, ⟨6, 7⟩, ⟨7, 8⟩, ⟨8, 9⟩,
   ⟨9, 10⟩, ⟨10, 11⟩, ⟨11, 12⟩, ⟨12, 13⟩, ⟨13, 14⟩, ⟨14, 15⟩, ⟨15, 16⟩,
   ⟨16, 17⟩, ⟨17, 18⟩, ⟨18, 19⟩, ⟨19, 20⟩]

/-- The stub regressor of the spec's full-feature test: the sum of the
`lag_1` and `roll7` fields of the feature vector it is given (fields are
passed in schema order, where `lag_1` is field 0 and `roll7` field 14). -/
def stubModel : List ℚ → ℚ := fun xs => xs.getD 0 0 + xs.getD 14 0

/-- A 5-observation series for the cold-start fallback test. -/
def short5 : Series := [⟨0, 10⟩, ⟨1, 20⟩, ⟨2, 30⟩, ⟨3, 40⟩, ⟨4, 50⟩]

/-- A series with strictly increasing but non-consecutive dates. -/
def gapped : Series := [⟨0, 10⟩, ⟨5, 20⟩]

/-- The value observed exactly `L` calendar days before the reference (last)
date.  Modelled from the spec: "the series value observed N days before a
reference date", used to compare the spec's reading of `lag_L` with the
code's positional shift. -/
def specLagByDays (w : Series) (L : Nat) : Option ℚ :=
  (w.getLast?).bind fun last =>
    (w.find? fun o => o.date = last.date - (L : Int)).map (·.aqi)

/-! ### Lemmas: feature cells of the last row -/

theorem length_shiftCol (L : Nat) (xs : List ℚ) :
    (shiftCol L xs).length = xs.length := by
  simp [shiftCol]

/-- The last cell of `AQI.shift(L)` is the value `L` positions before the
last entry, missing when fewer than `L` entries precede it. -/
theorem lastCell_shiftCol (L : Nat) (xs : List ℚ) :
    lastCell (shiftCol L xs) =
      if L < xs.length then xs[xs.length - 1 - L]? else none := by
  rcases Nat.eq_zero_or_pos xs.length with h0 | hpos
  · rw [List.length_eq_zero.mp h0]
    simp [lastCell, shiftCol]
  · unfold lastCell
    rw [List.getLast?_eq_getElem?, length_shiftCol]
    unfold shiftCol
    rw [List.getElem?_take, if_pos (by omega)]
    rw [List.getElem?_append]
    by_cases hL : L < xs.length
    · rw [if_neg (by simp; omega)]
      rw [List.length_replicate, List.getElem?_map, if_pos hL]
      cases h : xs[xs.length - 1 - L]? <;> simp [h]
    · rw [if_pos (by simp; omega)]
      rw [List.getElem?_replicate, if_pos (by omega), if_neg hL]
      rfl

theorem lagCell_eq (L : Nat) (w : Series) :
    lagCell L w =
      if L < w.length then (w.map (·.aqi))[w.length - 1 - L]? else none := by
  unfold lagCell
  rw [lastCell_shiftCol]
  simp

theorem length_rollMeanCol (w : Nat) (s : List (Option ℚ)) :
    (rollMeanCol w s).length = s.length := by
  simp [rollMeanCol]

/-- The last cell of `AQI.shift(1).rolling(win).mean()` is the mean of the
`win` values immediately preceding the last entry, missing when fewer than
`win` entries precede it. -/
theorem lastCell_rollMeanCol_shift1 (win : Nat) (xs : List ℚ)
    (hwin : 1 ≤ win) :
    lastCell (rollMeanCol win (shiftCol 1 xs)) =
      if win + 1 ≤ xs.length then
        some (qmean ((xs.drop (xs.length - 1 - win)).take win))
      else none := by
  rcases Nat.eq_zero_or_pos xs.length with h0 | hpos
  · rw [List.length_eq_zero.mp h0]
    simp [lastCell, rollMeanCol, shiftCol]
  · unfold lastCell
    rw [List.getLast?_eq_getElem?, length_rollMeanCol, length_shiftCol]
    unfold rollMeanCol
    rw [List.getElem?_map, List.getElem?_range (by rw [length_shiftCol]; omega)]
    simp only [Option.map_some', Option.getD_some]
    have hsucc : xs.length - 1 + 1 = xs.length := by omega
    rw [hsucc]
    rcases lt_trichotomy xs.length win with hgt | heq | hlt
    · rw [if_neg (show ¬ win ≤ xs.length by omega),
        if_neg (show ¬ win + 1 ≤ xs.length by omega)]
    · rw [if_pos (show win ≤ xs.length by omega),
        if_neg (show ¬ win + 1 ≤ xs.length by omega)]
      have hdrop : xs.length - win = 0 := by omega
      rw [hdrop, List.drop_zero]
      have hwl : win = (shiftCol 1 xs).length := by rw [length_shiftCol]; omega
      rw [hwl, List.take_length]
      obtain ⟨y, ys, rfl⟩ := List.exists_cons_of_ne_nil
        (List.length_pos.mp hpos)
      simp [shiftCol]
    · rw [if_pos (show win ≤ xs.length by omega),
        if_pos (show win + 1 ≤ xs.length by omega)]
      unfold shiftCol
      rw [List.drop_take]
      have h1 : xs.length - (xs.length - win) = win := by omega
      rw [h1]
      have h2 : xs.length - win = (xs.length - 1 - win) + 1 := by omega
      rw [h2]
      have h3 : List.replicate 1 (none : Option ℚ) ++ xs.map some =
          none :: xs.map some := by simp
      rw [h3, List.drop_succ_cons, List.take_take, min_self]
      have hwin_eq :
          List.take win (List.drop (xs.length - 1 - win) (List.map some xs)) =
            List.map some (List.take win (List.drop (xs.length - 1 - win) xs)) := by
        rw [← List.map_drop, ← List.map_take]
      rw [hwin_eq]
      have hall :
          ((List.map some
            (List.take win (List.drop (xs.length - 1 - win) xs))).all
            Option.isSome) = true := by
        rw [List.all_eq_true]
        intro x hx
        obtain ⟨y, hy, rfl⟩ := List.mem_map.mp hx
        rfl
      rw [if_pos hall, List.filterMap_map]
      simp only [Function.comp_def, id_eq, List.filterMap_some]

theorem rollCell_eq (win : Nat) (w : Series) (hwin : 1 ≤ win) :
    rollCell win w =
      if win + 1 ≤ w.length then
        some (qmean (((w.map (·.aqi)).drop (w.length - 1 - win)).take win))
      else none := by
  unfold rollCell
  rw [lastCell_rollMeanCol_shift1 win _ hwin]
  simp

/-! ### Lemmas: column selection by name -/

theorem featCell_lag (w : Series) (L : Nat) (h1 : 1 ≤ L) (h2 : L ≤ 14) :
    featCell w (lagName L) = lagCell L w := by
  interval_cases L <;> rfl

theorem featCell_roll7 (w : Series) : featCell w "roll7" = rollCell 7 w := rfl

theorem featCell_roll14 (w : Series) :
    featCell w "roll14" = rollCell 14 w := rfl

theorem featCell_dow (w : Series) :
    featCell w "dow" = calCell dayofweek w := rfl

theorem featCell_mon (w : Series) : featCell w "mon" = calCell month w := rfl

theorem featCell_doy (w : Series) :
    featCell w "doy" = calCell dayofyear w := rfl

theorem FEATURES_eq :
    FEATURES =
      ["lag_1", "lag_2", "lag_3", "lag_4", "lag_5", "lag_6", "lag_7",
       "lag_8", "lag_9", "lag_10", "lag_11", "lag_12", "lag_13", "lag_14",
       "roll7", "roll14", "dow", "mon", "doy"] := rfl

/-! ### Lemmas: sortedness and `last_date` -/

theorem sorted_dateLe_of_lt {w : Series}
    (h : (w.map (·.date)).Sorted (· < ·)) : List.Sorted dateLe w :=
  ((List.pairwise_map).mp h).imp fun hab => le_of_lt hab

theorem sortByDate_eq_of_sorted {w : Series} (h : List.Sorted dateLe w) :
    sortByDate w = w := h.insertionSort_eq

theorem getLast?_eq_foldl_max_of_sorted :
    ∀ (xs : List ℤ) (x : ℤ), (x :: xs).Sorted (· ≤ ·) →
      (x :: xs).getLast? = some (xs.foldl max x)
  | [], x, _ => rfl
  | y :: ys, x, h => by
    have hxy : x ≤ y := (List.sorted_cons.mp h).1 y (by simp)
    have htail : (y :: ys).Sorted (· ≤ ·) := (List.sorted_cons.mp h).2
    rw [List.getLast?_cons_cons, getLast?_eq_foldl_max_of_sorted ys y htail]
    simp [max_eq_right hxy]

theorem max?_eq_getLast?_of_sorted (l : List ℤ) (h : l.Sorted (· ≤ ·)) :
    l.max? = l.getLast? := by
  cases l with
  | nil => rfl
  | cons x xs => rw [getLast?_eq_foldl_max_of_sorted xs x h]; rfl

theorem histLastDate_of_sorted {w : Series} (hw : w ≠ [])
    (h : (w.map (·.date)).Sorted (· ≤ ·)) :
    histLastDate w = (w.getLast hw).date := by
  unfold histLastDate
  rw [max?_eq_getLast?_of_sorted _ h, List.getLast?_map,
    List.getLast?_eq_getLast _ hw]
  rfl

theorem le_getLast_of_sorted :
    ∀ (l : List ℤ), l.Sorted (· ≤ ·) → ∀ (hl : l ≠ []) (a : ℤ),
      a ∈ l → a ≤ l.getLast hl
  | [], _, hl, _, _ => absurd rfl hl
  | [x], _, _, a, ha => by
    simp at ha
    simp [ha, List.getLast]
  | x :: y :: ys, h, _, a, ha => by
    have hhead := (List.sorted_cons.mp h).1
    have htail := (List.sorted_cons.mp h).2
    rw [List.getLast_cons (by simp : (y :: ys) ≠ [])]
    rcases List.mem_cons.mp ha with rfl | ha'
    · exact hhead _ (List.getLast_mem _)
    · exact le_getLast_of_sorted (y :: ys) htail (by simp) a ha'

/-! ### Lemmas: the rollout loop -/

theorem rolloutLoop_fst (model : List ℚ → ℚ) (f : List String) (ld : Int) :
    ∀ (steps : List Nat) (work : Series) (out : List FPoint),
      (rolloutLoop model f ld steps work out).1 =
        out ++ rolloutOut model f ld steps work
  | [], work, out => by simp [rolloutLoop, rolloutOut]
  | s :: rest, work, out => by
    simp only [rolloutLoop, rolloutOut]
    rw [rolloutLoop_fst model f ld rest _ _]
    simp

theorem rolloutOut_map_date (model : List ℚ → ℚ) (f : List String)
    (ld : Int) :
    ∀ (steps : List Nat) (work : Series),
      (rolloutOut model f ld steps work).map (·.date) =
        steps.map fun (s : Nat) => ld + (s : Int)
  | [], _ => rfl
  | s :: rest, work => by
    simp only [rolloutOut, List.map_cons]
    rw [rolloutOut_map_date model f ld rest _]

theorem workAfterSteps_append (model : List ℚ → ℚ) (f : List String)
    (ld : Int) :
    ∀ (a b : List Nat) (w : Series),
      workAfterSteps model f ld (a ++ b) w =
        workAfterSteps model f ld b (workAfterSteps model f ld a w)
  | [], _, _ => rfl
  | s :: rest, b, w => by
    simp only [List.cons_append, workAfterSteps]
    exact workAfterSteps_append model f ld rest b _

theorem rolloutOut_getElem? (model : List ℚ → ℚ) (f : List String)
    (ld : Int) :
    ∀ (steps : List Nat) (work : Series) (k : Nat),
      (rolloutOut model f ld steps work)[k]? =
        (steps[k]?).map fun s =>
          (⟨ld + (s : Int),
            stepPred model f
              (workAfterSteps model f ld (steps.take k) work)⟩ : FPoint)
  | [], _, k => by simp [rolloutOut]
  | s :: rest, work, 0 => by simp [rolloutOut, workAfterSteps]
  | s :: rest, work, k + 1 => by
    simp only [rolloutOut, List.getElem?_cons_succ, List.take_succ_cons]
    rw [rolloutOut_getElem? model f ld rest _ k]
    simp only [workAfterSteps]

theorem forecast_fst (model : List ℚ → ℚ) (f : List String) (hist : Series) :
    (forecast model f hist).1 =
      rolloutOut model f (histLastDate hist) (List.range' 1 7) hist := by
  unfold forecast
  rw [rolloutLoop_fst]
  simp

theorem take_range'_seven {k : Nat} (hk : k ≤ 7) :
    (List.range' 1 7).take k = List.range' 1 k := by
  have h := List.range'_append 1 k (7 - k) 1
  simp only [one_mul] at h
  have h7 : 7 - k + k = 7 := by omega
  rw [h7] at h
  rw [← h]
  exact List.take_left' (List.length_range' 1 1 k)

theorem forecast_getElem? (model : List ℚ → ℚ) (f : List String)
    (hist : Series) {k : Nat} (hk : k < 7) :
    (forecast model f hist).1[k]? =
      some ⟨histLastDate hist + ((1 + k : Nat) : Int),
            stepPred model f (workAt model f hist k)⟩ := by
  rw [forecast_fst, rolloutOut_getElem?, List.getElem?_range' 1 1 hk,
    take_range'_seven (le_of_lt hk)]
  simp [workAt]

theorem workAt_zero (model : List ℚ → ℚ) (f : List String) (hist : Series) :
    workAt model f hist 0 = hist := rfl

theorem range'_one_succ (k : Nat) :
    List.range' 1 (k + 1) = List.range' 1 k ++ [1 + k] := by
  have h := List.range'_append 1 k 1 1
  simp only [one_mul] at h
  rw [Nat.add_comm 1 k] at h
  rw [← h]
  simp [List.range'_one, Nat.add_comm]

theorem workAt_succ (model : List ℚ → ℚ) (f : List String) (hist : Series)
    (k : Nat) :
    workAt model f hist (k + 1) =
      workAt model f hist k ++
        [⟨histLastDate hist + ((1 + k : Nat) : Int),
          stepPred model f (workAt model f hist k)⟩] := by
  unfold workAt
  rw [range'_one_succ, workAfterSteps_append]
  rfl

/-! ### Lemmas: the model-loading loop -/

theorem foldl_loadStep_snd (files : String → Option ModelObj) :
    ∀ (ds : List String) (acc : List (String × (List ℚ → ℚ)) × Option (List String)),
      (ds.foldl (loadStep files) acc).2 =
        match (ds.filterMap files).getLast? with
        | some o => some o.features
        | none => acc.2 := by
  intro ds
  induction ds using List.reverseRecOn with
  | nil => intro acc; rfl
  | append_singleton ds d ih =>
    intro acc
    rw [List.foldl_append, List.filterMap_append]
    simp only [List.foldl_cons, List.foldl_nil]
    cases hfd : files d with
    | none => simp [loadStep, hfd, ih]
    | some o => simp [loadStep, hfd, List.getLast?_concat]

theorem features_global_last (files : String → Option ModelObj) :
    (loadModels files).2 =
      ((DIVS.filterMap files).getLast?).map (·.features) := by
  unfold loadModels
  rw [foldl_loadStep_snd]
  cases (DIVS.filterMap files).getLast? <;> rfl

/-! ### Claims C7–C10 -/

/-- C9: the feature schema used to build the model input is the single
process-wide `FEATURES` value, overwritten by each model loaded at startup;
hence for every division the `/predict` pipeline selects feature columns
with the schema stored alongside the last loaded model, not necessarily the
division's own model's schema. -/
theorem schema_is_last_loaded (files : String → Option ModelObj)
    (fetchClean : List Row) (now : Int) (st : AppState) (division : String) :
    predictApp files fetchClean now st division =
      predict (loadModels files).1
        ((((DIVS.filterMap files).getLast?).map (·.features)).getD [])
        fetchClean now st division := by
  simp only [predictApp]
  rw [features_global_last]

/-- C10: the division string is stripped before validation, so any two
inputs with the same stripped form are treated identically (e.g.
`" Dhaka "` and `"Dhaka"`), and any input whose stripped form is not one of
the 8 divisions is rejected with a 400 error. -/
theorem strip_then_validate (models : List (String × (List ℚ → ℚ)))
    (features : List String) (fetchClean : List Row) (now : Int)
    (st : AppState) :
    (∀ d1 d2 : String, pyStrip d1 = pyStrip d2 →
      predict models features fetchClean now st d1 =
        predict models features fetchClean now st d2) ∧
    (∀ d : String, pyStrip d ∉ DIVS →
      (predict models features fetchClean now st d).1 =
        .error ⟨400, "division must be one of " ++ toString DIVS⟩) := by
  constructor
  · intro d1 d2 h
    unfold predict
    rw [h]
  · intro d h
    unfold predict predictBody
    rw [if_pos h]

/-- C10 witness: `" Dhaka "` is handled exactly like `"Dhaka"`, while
`"Narnia"` is rejected with a 400 error. -/
theorem strip_then_validate_witness :
    predict [] [] [] 0 ⟨none, 0⟩ " Dhaka " =
      predict [] [] [] 0 ⟨none, 0⟩ "Dhaka" ∧
    (predict [] [] [] 0 ⟨none, 0⟩ "Narnia").1 =
      .error ⟨400, "division must be one of " ++ toString DIVS⟩ :=
  ⟨(strip_then_validate [] [] [] 0 ⟨none, 0⟩).1 " Dhaka " "Dhaka" (by decide),
   (strip_then_validate [] [] [] 0 ⟨none, 0⟩).2 "Narnia" (by decide)⟩

/-- C7: for every division (with a model), a forecast request over an empty
extracted series fails with the 404 "no data" error and produces no
forecast points. -/
theorem empty_series_rejected (models : List (String × (List ℚ → ℚ)))
    (features : List String) (fetchClean : List Row) (now : Int)
    (st : AppState) (d : String) (hstrip : pyStrip d = d) (hdiv : d ∈ DIVS)
    (m : List ℚ → ℚ) (hm : models.lookup d = some m)
    (hnodata :
      ((get_data_cached fetchClean now st).1.filter fun r => r.city == d) = []) :
    predict models features fetchClean now st d =
      (.error ⟨404, "No data for " ++ d⟩,
        (get_data_cached fetchClean now st).2) := by
  unfold predict
  rw [hstrip]
  unfold predictBody
  rw [if_neg (show ¬ d ∉ DIVS from fun hn => hn hdiv)]
  have hh : extractHist (get_data_cached fetchClean now st).1 d = [] := by
    unfold extractHist
    rw [hnodata]
    rfl
  simp only [hm, hh, List.isEmpty_nil, if_pos]

/-- C7 witness: with a model for Dhaka and a cached sheet holding no Dhaka
rows, the request fails with the 404 error. -/
theorem empty_series_rejected_witness :
    predict [("Dhaka", stubModel)] FEATURES [] 0 ⟨none, 0⟩ "Dhaka" =
      (.error ⟨404, "No data for Dhaka"⟩, ⟨some [], 0⟩) := by
  have h := empty_series_rejected [("Dhaka", stubModel)] FEATURES [] 0
    ⟨none, 0⟩ "Dhaka" (by decide) (by decide) stubModel rfl rfl
  exact h

/-- C8: a forecast call over a fresh cache never mutates the series store:
the returned module state is exactly the input state, so the cached sheet
and every division's extracted historical series are unchanged. -/
theorem store_not_mutated (models : List (String × (List ℚ → ℚ)))
    (features : List String) (fetchClean : List Row) (now : Int)
    (st : AppState) (d : String) (df : List Row)
    (hcache : st.cacheDf = some df)
    (hfresh : now - st.cacheTs ≤ CACHE_SECS) :
    (predict models features fetchClean now st d).2 = st ∧
    ∀ dv : String,
      extractHist ((predict models features fetchClean now st d).2.cacheDf.getD []) dv =
        extractHist (st.cacheDf.getD []) dv := by
  have hg : get_data_cached fetchClean now st = (df, st) := by
    unfold get_data_cached
    rw [if_neg]
    · rw [hcache]
      rfl
    · rw [hcache]
      simp
      omega
  have hmain : (predict models features fetchClean now st d).2 = st := by
    unfold predict predictBody
    split
    · rfl
    · split
      · rfl
      · rw [hg]
        dsimp only
        split
        · rfl
        · rfl
  exact ⟨hmain, fun dv => by rw [hmain]⟩

/-- C8 witness: a call against a fresh cached state returns that state
unchanged. -/
theorem store_not_mutated_witness :
    (predict [] [] [] 0 ⟨some [⟨0, "Dhaka", 7⟩], 0⟩ "Dhaka").2 =
      (⟨some [⟨0, "Dhaka", 7⟩], 0⟩ : AppState) :=
  (store_not_mutated [] [] [] 0 ⟨some [⟨0, "Dhaka", 7⟩], 0⟩ "Dhaka"
    [⟨0, "Dhaka", 7⟩] rfl (by decide)).1

/-! ### Claims C3–C6 -/

/-- C3: for every non-empty input series the rollout emits exactly 7
forecast points, dated `last_date + 1 .. last_date + 7`: consecutive daily
steps in increasing order with no gaps. -/
theorem horizon_dates (model : List ℚ → ℚ) (features : List String)
    (hist : Series) (_hne : hist ≠ []) :
    ((forecast model features hist).1).length = 7 ∧
    ((forecast model features hist).1).map (·.date) =
      [histLastDate hist + 1, histLastDate hist + 2, histLastDate hist + 3,
       histLastDate hist + 4, histLastDate hist + 5, histLastDate hist + 6,
       histLastDate hist + 7] := by
  have hd : ((forecast model features hist).1).map (·.date) =
      [histLastDate hist + 1, histLastDate hist + 2, histLastDate hist + 3,
       histLastDate hist + 4, histLastDate hist + 5, histLastDate hist + 6,
       histLastDate hist + 7] := by
    rw [forecast_fst, rolloutOut_map_date]
    norm_num [List.range']
  refine ⟨?_, hd⟩
  have hlen := congrArg List.length hd
  simpa using hlen

/-- C3 witness: the forecast for a one-observation series has 7 points on
the 7 days after its last date. -/
theorem horizon_dates_witness :
    ((forecast stubModel FEATURES short5).1).length = 7 ∧
    ((forecast stubModel FEATURES short5).1).map (·.date) =
      [5, 6, 7, 8, 9, 10, 11] := by
  have h := horizon_dates stubModel FEATURES short5 (by decide)
  refine ⟨h.1, ?_⟩
  rw [h.2]
  norm_num [show histLastDate short5 = 4 from rfl]

theorem stepPred_missing {model : List ℚ → ℚ} {features : List String}
    {work : Series}
    (h : ((features.map (build_feats_last work)).any Option.isNone) = true) :
    stepPred model features work = fallbackMean work := by
  unfold stepPred
  rw [if_pos h]

/-- C4: at any rollout step whose feature vector (the schema's columns of
the last row) has a missing field, the emitted prediction is the arithmetic
mean of the last (up to) 7 values of the current working series. -/
theorem missing_feature_fallback (model : List ℚ → ℚ)
    (features : List String) (hist : Series) {k : Nat} (hk : k < 7)
    (hmiss :
      ((features.map
        (build_feats_last (workAt model features hist k))).any
        Option.isNone) = true) :
    (forecast model features hist).1[k]? =
      some ⟨histLastDate hist + ((1 + k : Nat) : Int),
            fallbackMean (workAt model features hist k)⟩ := by
  rw [forecast_getElem? model features hist hk, stepPred_missing hmiss]

/-- C4 witness: for the 5-observation series the step-1 feature vector is
incomplete, and the first prediction is the mean of those 5 values. -/
theorem missing_feature_fallback_witness :
    (forecast stubModel FEATURES short5).1[0]? = some ⟨5, 30⟩ ∧
    (30 : ℚ) = qmean [10, 20, 30, 40, 50] := by
  constructor
  · have h := @missing_feature_fallback stubModel FEATURES short5 0
      (by norm_num) (by decide)
    rw [h, workAt_zero, show histLastDate short5 = 4 from rfl]
    norm_num [fallbackMean, short5, qmean]
  · norm_num [qmean]

/-- C5: for a (date-sorted) series, `roll7` of the last timestep is the mean
of the 7 values strictly preceding the reference entry and is missing
whenever fewer than 7 preceding values exist (no partial windows); likewise
`roll14` with a 14-value window. -/
theorem rolling_features (w : Series)
    (hs : (w.map (·.date)).Sorted (· < ·)) :
    (build_feats_last w "roll7" =
      if 7 + 1 ≤ w.length then
        some (qmean (((w.map (·.aqi)).drop (w.length - 1 - 7)).take 7))
      else none) ∧
    (build_feats_last w "roll14" =
      if 14 + 1 ≤ w.length then
        some (qmean (((w.map (·.aqi)).drop (w.length - 1 - 14)).take 14))
      else none) := by
  have hsort := sortByDate_eq_of_sorted (sorted_dateLe_of_lt hs)
  unfold build_feats_last
  rw [hsort]
  exact ⟨by rw [featCell_roll7, rollCell_eq 7 w (by norm_num)],
         by rw [featCell_roll14, rollCell_eq 14 w (by norm_num)]⟩

/-- C5 witness: on the 20-day ramp, `roll7` of the last timestep is the mean
of values 13..19 (16); on the 5-day series it is missing. -/
theorem rolling_features_witness :
    build_feats_last ramp "roll7" = some 16 ∧
    build_feats_last short5 "roll7" = none := by
  constructor
  · rw [(rolling_features ramp (by decide)).1]
    norm_num [ramp, qmean]
  · rw [(rolling_features short5 (by decide)).1]
    norm_num [short5]

/-- C6 counterexample: with strictly increasing but non-consecutive dates
(days 0 and 5), `lag_1` of the last timestep is the previous observation's
value (10) even though one prior observation exists and no observation is
dated one day before the reference date, so it is not "the series value
observed 1 day before the reference date". -/
theorem lag_by_days_counterexample :
    build_feats_last gapped "lag_1" = some 10 ∧
    specLagByDays gapped 1 = none ∧
    ¬ build_feats_last gapped "lag_1" = specLagByDays gapped 1 := by
  refine ⟨rfl, rfl, ?_⟩
  show ¬ some (10 : ℚ) = none
  simp

/-- C6 amended: `lag_L` of the last timestep is positional: the value of the
`L`-th observation before the reference entry, missing when fewer than `L`
prior observations exist.  (It equals the value observed `L` days before
the reference date only when the dates are consecutive.) -/
theorem lag_features_amended (w : Series) (L : Nat)
    (hs : (w.map (·.date)).Sorted (· < ·)) (h1 : 1 ≤ L) (h2 : L ≤ 14) :
    build_feats_last w (lagName L) =
      if L < w.length then (w.map (·.aqi))[w.length - 1 - L]? else none := by
  unfold build_feats_last
  rw [sortByDate_eq_of_sorted (sorted_dateLe_of_lt hs),
    featCell_lag w L h1 h2, lagCell_eq]

/-- C6 amended witness: on the gapped series, `lag_1` is the value of the
single prior observation. -/
theorem lag_features_amended_witness :
    build_feats_last gapped (lagName 1) = some 10 := by
  rw [lag_features_amended gapped 1 (by decide) (by norm_num) (by norm_num)]
  norm_num [gapped]

/-! ### Lemmas: concrete evaluation on the ramp fixture -/

theorem ramp_feats_not_missing :
    ((FEATURES.map (build_feats_last ramp)).any Option.isNone) = false := by
  decide

theorem ramp_lag1_value :
    ((FEATURES.map (build_feats_last ramp)).filterMap id).getD 0 0 = 19 := rfl

theorem ramp_roll7_value :
    ((FEATURES.map (build_feats_last ramp)).filterMap id).getD 14 0 =
      qmean [13, 14, 15, 16, 17, 18, 19] := rfl

/-- The step-1 prediction of the stub regressor on the ramp: the `lag_1`
cell (19, the value one day before the reference date) plus the `roll7`
cell (the mean of values 13..19, i.e. 16). -/
theorem ramp_step1_value : stepPred stubModel FEATURES ramp = 35 := by
  simp only [stepPred]
  rw [if_neg (show ¬ ((FEATURES.map (build_feats_last ramp)).any
      Option.isNone = true) by rw [ramp_feats_not_missing]; simp)]
  simp only [stubModel]
  rw [ramp_lag1_value, ramp_roll7_value]
  norm_num [qmean]

/-- The first emitted forecast point on the ramp. -/
theorem ramp_first_point :
    (forecast stubModel FEATURES ramp).1[0]? = some ⟨20, 35⟩ := by
  rw [forecast_getElem? stubModel FEATURES ramp (show 0 < 7 by norm_num),
    workAt_zero, ramp_step1_value]
  norm_num [show histLastDate ramp = 19 from rfl]

/-! ### Claim C1 -/

/-- C1 counterexample: on the 1..20 ramp with the `lag_1 + roll7` stub
regressor the engine's step-1 prediction is 35, not the claimed
`20 + mean(values[13..19]) = 36`: the reference row of the step-1 feature
vector is the last observation, whose `lag_1` is 19, not 20. -/
theorem full_feature_counterexample :
    ((forecast stubModel FEATURES ramp).1[0]?).map FPoint.pred = some 35 ∧
    (20 : ℚ) + qmean [13, 14, 15, 16, 17, 18, 19] = 36 ∧
    ¬ ((forecast stubModel FEATURES ramp).1[0]?).map FPoint.pred =
        some ((20 : ℚ) + qmean [13, 14, 15, 16, 17, 18, 19]) := by
  refine ⟨by rw [ramp_first_point]; rfl, by norm_num [qmean], ?_⟩
  rw [ramp_first_point]
  norm_num [qmean]

/-- C1 amended: on the 1..20 ramp with the `lag_1 + roll7` stub regressor,
the engine's step-1 prediction equals `19 + mean(values[13..19])` (= 35):
the `lag_1` of the reference row is the value one day before the last
date. -/
theorem full_feature_amended :
    ((forecast stubModel FEATURES ramp).1[0]?).map FPoint.pred =
      some ((19 : ℚ) + qmean [13, 14, 15, 16, 17, 18, 19]) := by
  rw [ramp_first_point]
  norm_num [qmean]

/-! ### Lemmas: `lag_1` after extending the working series -/

theorem le_of_getLast?_sorted {l : List ℤ} {M : ℤ} (h : l.Sorted (· ≤ ·))
    (hM : l.getLast? = some M) : ∀ a ∈ l, a ≤ M := by
  intro a ha
  have hne : l ≠ [] := by rintro rfl; simp at hM
  have hg : l.getLast hne = M :=
    Option.some.inj ((List.getLast?_eq_getLast l hne).symm.trans hM)
  exact hg ▸ le_getLast_of_sorted l h hne a ha

theorem dates_le_histLastDate {hist : Series} (hne : hist ≠ [])
    (hs : (hist.map (·.date)).Sorted (· ≤ ·)) :
    ∀ a ∈ hist, a.date ≤ histLastDate hist := by
  intro a ha
  rw [histLastDate_of_sorted hne hs]
  have hmem : a.date ∈ hist.map (·.date) := List.mem_map_of_mem _ ha
  have hM : (hist.map (·.date)).getLast? =
      some ((hist.getLast hne).date) := by
    rw [List.getLast?_map, List.getLast?_eq_getLast _ hne]
    rfl
  exact le_of_getLast?_sorted hs hM _ hmem

theorem sorted_append_obs {w : Series} {o : Obs}
    (hsor : List.Sorted dateLe w)
    (hle : ∀ a ∈ w, a.date ≤ o.date) : List.Sorted dateLe (w ++ [o]) := by
  rw [List.Sorted, List.pairwise_append]
  refine ⟨hsor, List.pairwise_singleton _ _, ?_⟩
  intro a ha b hb
  rw [List.mem_singleton] at hb
  subst hb
  exact hle a ha

theorem getLast_concat_eq {w : Series} {o : Obs} (h : w ++ [o] ≠ []) :
    (w ++ [o]).getLast h = o := by
  have hc := @List.getLast?_concat _ o w
  rw [List.getLast?_eq_getLast _ h] at hc
  exact Option.some.inj hc

theorem featCell_lag1 (w : Series) : featCell w "lag_1" = lagCell 1 w := rfl

/-- `lag_1` of the last row of a (sorted) extended series is the value of
the entry just before the appended one. -/
theorem lag1_append {w : Series} {o : Obs} (hw : w ≠ [])
    (hsorted : List.Sorted dateLe (w ++ [o])) :
    build_feats_last (w ++ [o]) "lag_1" = some ((w.getLast hw).aqi) := by
  unfold build_feats_last
  rw [sortByDate_eq_of_sorted hsorted, featCell_lag1, lagCell_eq]
  have hwpos : 0 < w.length := List.length_pos.mpr hw
  have hlen : (w ++ [o]).length = w.length + 1 := by simp
  rw [hlen, if_pos (by omega)]
  have hidx : w.length + 1 - 1 - 1 = w.length - 1 := by omega
  rw [hidx, List.map_append, List.getElem?_append,
    if_pos (by simp; omega)]
  have hlast : (w.map (·.aqi)).getLast? = some ((w.getLast hw).aqi) := by
    rw [List.getLast?_map, List.getLast?_eq_getLast _ hw]
    rfl
  rw [List.getLast?_eq_getElem?] at hlast
  simpa using hlast

/-! ### Claim C2 -/

/-- C2 counterexample: on the ramp with the stub regressor, the `lag_1`
feature of the vector used at rollout step 2 is 20 — the last original
observation — while the step-1 prediction is 35; they differ. -/
theorem compounding_counterexample :
    stepFeature stubModel FEATURES ramp 2 "lag_1" = some 20 ∧
    ((forecast stubModel FEATURES ramp).1[0]?).map FPoint.pred = some 35 ∧
    ¬ stepFeature stubModel FEATURES ramp 2 "lag_1" =
        ((forecast stubModel FEATURES ramp).1[0]?).map FPoint.pred := by
  have h1 : stepFeature stubModel FEATURES ramp 2 "lag_1" = some 20 := rfl
  have h2 : ((forecast stubModel FEATURES ramp).1[0]?).map FPoint.pred =
      some 35 := by
    rw [ramp_first_point]
    rfl
  refine ⟨h1, h2, ?_⟩
  rw [h1, h2]
  norm_num

/-- C2 amended: for every non-empty date-sorted series, the `lag_1` feature
used at rollout step 2 equals the last original observation (the appended
step-1 prediction is the reference row itself, not its `lag_1`); the step-1
prediction becomes the `lag_1` feature one step later, at step 3. -/
theorem compounding_amended (model : List ℚ → ℚ) (features : List String)
    (hist : Series) (hne : hist ≠ [])
    (hs : (hist.map (·.date)).Sorted (· < ·)) :
    stepFeature model features hist 2 "lag_1" =
      some ((hist.getLast hne).aqi) ∧
    stepFeature model features hist 3 "lag_1" =
      some (stepPred model features hist) := by
  have hsle : (hist.map (·.date)).Sorted (· ≤ ·) := hs.imp le_of_lt
  have hdle := dates_le_histLastDate hne hsle
  have hsor : List.Sorted dateLe hist := sorted_dateLe_of_lt hs
  have h1 : workAt model features hist 1 =
      hist ++ [⟨histLastDate hist + 1, stepPred model features hist⟩] := by
    rw [show (1 : Nat) = 0 + 1 from rfl, workAt_succ, workAt_zero]
    norm_num
  have hsor1 : List.Sorted dateLe
      (hist ++ [⟨histLastDate hist + 1, stepPred model features hist⟩]) :=
    sorted_append_obs hsor fun a ha =>
      le_trans (hdle a ha)
        (by show histLastDate hist ≤ histLastDate hist + 1; omega)
  constructor
  · show build_feats_last (workAt model features hist 1) "lag_1" = _
    rw [h1]
    exact lag1_append hne hsor1
  · show build_feats_last (workAt model features hist 2) "lag_1" = _
    have h2 : workAt model features hist 2 =
        workAt model features hist 1 ++
          [⟨histLastDate hist + 2,
            stepPred model features (workAt model features hist 1)⟩] := by
      rw [show (2 : Nat) = 1 + 1 from rfl, workAt_succ]
      norm_num
    rw [h2, h1]
    have hne1 : hist ++
        [⟨histLastDate hist + 1, stepPred model features hist⟩] ≠ [] := by
      simp
    have hsor2 : List.Sorted dateLe
        ((hist ++ [⟨histLastDate hist + 1, stepPred model features hist⟩]) ++
          [⟨histLastDate hist + 2,
            stepPred model features
              (hist ++ [⟨histLastDate hist + 1,
                stepPred model features hist⟩])⟩]) := by
      refine sorted_append_obs hsor1 fun a ha => ?_
      rcases List.mem_append.mp ha with ha' | ha'
      · exact le_trans (hdle a ha')
          (by show histLastDate hist ≤ histLastDate hist + 2; omega)
      · rw [List.mem_singleton] at ha'
        subst ha'
        show histLastDate hist + 1 ≤ histLastDate hist + 2
        omega
    rw [lag1_append hne1 hsor2, getLast_concat_eq hne1]

/-- C2 amended witness: on the ramp, step 2's `lag_1` is the last original
observation 20, and step 3's `lag_1` is the step-1 prediction 35. -/
theorem compounding_amended_witness :
    stepFeature stubModel FEATURES ramp 2 "lag_1" = some 20 ∧
    stepFeature stubModel FEATURES ramp 3 "lag_1" = some 35 := by
  have h := compounding_amended stubModel FEATURES ramp (by decide) (by decide)
  refine ⟨?_, ?_⟩
  · rw [h.1]
    rfl
  · rw [h.2, ramp_step1_value]

end AqiBd
